import Mathlib

/-!
Verification of the vellum Model/Collection state-and-sync engine.

Shallow embedding of the core sources:
  src/lib/Model.svelte.ts        (Model: attributes, change tracking, validation, sync/save)
  src/lib/Collection.svelte.ts   (Collection: add/reset/sort)
  src/lib/config.svelte.ts       (VellumConfig, configureVellum)
  src/lib/utils.ts               (escapeHTML)
  src/lib/errors/validation_error.ts (ValidationError)

JavaScript values appearing as model attributes are modelled by `JsValue`
(null, string, number, boolean); JS objects by association lists in key
order.  Numbers are modelled as integers: no claim involves non-integral
or NaN arithmetic.  Network transport is a parameter `Request →
TransportResponse`; an operation's list of issued requests is part of its
result, so "the transport is never invoked" is "the request list is empty".
-/

namespace Vellum

/-- JavaScript attribute value: null, string, number (integer model) or boolean. -/
inductive JsValue where
  | vNull : JsValue
  | str : String → JsValue
  | num : Int → JsValue
  | bool : Bool → JsValue
deriving DecidableEq, Repr

/-- A JS object, in key order.  Keys are unique in every object built by the code. -/
abbrev AttrMap := List (String × JsValue)

/-- Property lookup on a JS object (first matching key). -/
def lookupAssoc {α : Type} (l : List (String × α)) (k : String) : Option α :=
  match l with
  | [] => none
  | kv :: rest => if kv.1 = k then some kv.2 else lookupAssoc rest k

/-- JS object spread / `Object.assign` merge: keys of `base` keep their position
with values overridden by `upd`; keys only in `upd` are appended in `upd` order. -/
def mergeAssoc {α : Type} (base upd : List (String × α)) : List (String × α) :=
  base.map (fun kv =>
    match lookupAssoc upd kv.1 with
    | some v => (kv.1, v)
    | none => kv) ++
  upd.filter (fun kv => (lookupAssoc base kv.1).isNone)

/-- JS truthiness of a value (`!v` is `!truthy v`).  `NaN` is outside the model. -/
def JsValue.truthy : JsValue → Bool
  | JsValue.vNull => false
  | JsValue.str s => s.length != 0
  | JsValue.num n => n != 0
  | JsValue.bool b => b

/-- JS `val.toString()` for the values of the model. -/
def JsValue.jsToString : JsValue → String
  | JsValue.vNull => "null"
  | JsValue.str s => s
  | JsValue.num n => toString n
  | JsValue.bool b => if b then "true" else "false"

/-- errors/validation_error.ts: `ValidationError extends Error` with
`details` (defaulted to an empty map), `status = 400`, `name = "ValidationError"`.
The `string | string[]` detail values are modelled as strings; no claim reads them. -/
structure ValidationError where
  message : String
  details : List (String × String) := []
  status : Nat := 400
  name : String := "ValidationError"
deriving DecidableEq, Repr

/-- Model.svelte.ts `ValidationOptions`: `validate?: boolean; silent?: boolean`.
An absent `validate` is `none`; absent `silent` behaves as `false`. -/
structure ValidationOptions where
  validate : Option Bool := none
  silent : Bool := false
deriving DecidableEq, Repr

/-- config.svelte.ts lines 1-4: `VellumConfig` declares exactly two fields,
`origin` and `headers`.  It has no `idAttribute` field. -/
structure VellumConfig where
  origin : String
  headers : List (String × String)
deriving DecidableEq, Repr

/-- config.svelte.ts lines 13-18: the global configuration's initial value. -/
def vellumConfig : VellumConfig :=
  { origin := "", headers := [("Content-Type", "application/json")] }

/-- The object an application passes to `configureVellum`.  The spec's
configuration API also admits an id-attribute name, and the repository's tests
call `configureVellum` with an `idAttribute` key, so the update object carries
that field here; `configureVellum` below (faithful to config.svelte.ts lines
49-54) reads only `origin` and `headers`. -/
structure ConfigUpdate where
  origin : Option String := none
  headers : Option (List (String × String)) := none
  idAttribute : Option String := none
deriving DecidableEq, Repr

/-- config.svelte.ts lines 49-54: `if (config.origin) vellumConfig.origin = config.origin;
if (config.headers) vellumConfig.headers = merge(...)`.  A provided empty-string
origin is falsy and ignored; provided headers (any object) are merged key-by-key.
No other key of the update object is consulted. -/
def configureVellum (config : ConfigUpdate) (c : VellumConfig) : VellumConfig :=
  let c1 :=
    match config.origin with
    | some o => if o.length != 0 then { c with origin := o } else c
    | none => c
  match config.headers with
  | some hs => { c1 with headers := mergeAssoc c1.headers hs }
  | none => c1

/-- The property read `vellumConfig.idAttribute` performed by Model.svelte.ts
line 145.  `VellumConfig` declares no `idAttribute` field, so in JavaScript this
read evaluates to `undefined` for every configuration value. -/
def readIdAttribute (_c : VellumConfig) : Option String := none

/-- Model.svelte.ts `Model<T>`: the per-instance state.  `idAttribute` and
`endpoint` are the subclass-determined identity-field name and the string
returned by the subclass's `endpoint()` method. -/
structure Model where
  idAttribute : String
  endpoint : String
  attributes : AttrMap
  changed : AttrMap := []
  previous : AttrMap := []
  validationError : Option ValidationError := none
deriving DecidableEq, Repr

/-- The subclass's overridable `validate(attributes, options)` hook: returns a
message string on failure, `undefined` (`none`) on success.  The source default
always returns `undefined`. -/
abbrev ValidateHook := AttrMap → ValidationOptions → Option String

/-- Model.svelte.ts `get(key)`: current value, `undefined` (`none`) when absent. -/
def Model.get (m : Model) (key : String) : Option JsValue :=
  lookupAssoc m.attributes key

/-- Model.svelte.ts lines 813-821 `#getId()`: the identity value when it is a
number or a non-empty string, otherwise `undefined`. -/
def Model.getId (m : Model) : Option JsValue :=
  match lookupAssoc m.attributes m.idAttribute with
  | some (JsValue.num n) => some (JsValue.num n)
  | some (JsValue.str s) => if s.length > 0 then some (JsValue.str s) else none
  | _ => none

/-- Model.svelte.ts lines 474-476 `isNew()`: literally `!this.#getId()` — JS
negation of the returned value, so `undefined` gives `true` and a returned
number `0` also gives `true`. -/
def Model.isNew (m : Model) : Bool :=
  match m.getId with
  | some v => !v.truthy
  | none => true

/-- Model.svelte.ts lines 823-838 `#doValidation(attrs, options)`: with `silent`
it clears `validationError` and reports success without calling the hook;
otherwise it calls the hook, storing a `ValidationError` holding the returned
non-empty message (failure), and clearing `validationError` on success. -/
def Model.doValidation (m : Model) (validate : ValidateHook) (attrs : AttrMap)
    (opts : ValidationOptions) : Bool × Model :=
  if opts.silent then
    (true, { m with validationError := none })
  else
    match validate attrs opts with
    | some errMsg =>
      if errMsg.length > 0 then
        (false, { m with validationError := some { message := errMsg } })
      else
        (true, { m with validationError := none })
    | none => (true, { m with validationError := none })

/-- Model.svelte.ts lines 334-344 (unconditional tail of `set`): store the
previous values of the incoming keys that exist in `attributes`, replace
`changed` with the incoming partial verbatim, and merge it into `attributes`. -/
def Model.applySet (m : Model) (attrs : AttrMap) : Model :=
  { m with
    previous := attrs.filterMap (fun kv =>
      (lookupAssoc m.attributes kv.1).map (fun v => (kv.1, v))),
    changed := attrs,
    attributes := mergeAssoc m.attributes attrs }

/-- Model.svelte.ts lines 314-345 `set(attrs, options)`: when `options.validate`
is truthy, validate the merged candidate first and return `false` (leaving the
rest of the state alone) on failure; otherwise apply the update and return
`true`.  The `set(key, value, options)` overload builds the one-key object and
takes the same path. -/
def Model.set (m : Model) (validate : ValidateHook) (attrs : AttrMap)
    (opts : ValidationOptions) : Bool × Model :=
  if opts.validate = some true then
    match m.doValidation validate (mergeAssoc m.attributes attrs) opts with
    | (true, m1) => (true, m1.applySet attrs)
    | (false, m1) => (false, m1)
  else
    (true, m.applySet attrs)

/-- Model.svelte.ts lines 510-512 `isValid(options)`: delegates to
`#doValidation(attributes, merge of options with validate true)`. -/
def Model.isValid (m : Model) (validate : ValidateHook)
    (opts : ValidationOptions) : Bool × Model :=
  m.doValidation validate m.attributes { opts with validate := some true }

/-- Model.svelte.ts lines 807-809 `toJSON()`: a shallow copy of `attributes`
(value-identical to `attributes` in this embedding). -/
def Model.toJSON (m : Model) : AttrMap :=
  m.attributes

/-- utils.ts lines 6-16: the per-character replacement table of `escapeHTML`. -/
def escapeChar (c : Char) : String :=
  if c = '&' then "&amp;"
  else if c = '<' then "&lt;"
  else if c = '>' then "&gt;"
  else if c = '"' then "&quot;"
  else if c = '\'' then "&#39;"
  else String.singleton c

/-- utils.ts `escapeHTML(text)`: `text.replace(/[&<>"']/g, c => lookup[c])`,
i.e. every occurrence of one of the five characters is replaced by its entity
and every other character is kept. -/
def escapeHTML (s : String) : String :=
  String.join (s.data.map escapeChar)

/-- Model.svelte.ts lines 462-466 `escape(key)`: empty string for an absent,
`undefined` or `null` value, otherwise `escapeHTML(val.toString())`.  The
method reads `attributes` and performs no mutation. -/
def Model.escape (m : Model) (key : String) : String :=
  match lookupAssoc m.attributes key with
  | none => ""
  | some JsValue.vNull => ""
  | some v => escapeHTML v.jsToString

/-- Model.svelte.ts `SyncOptions extends Partial<VellumConfig>` plus
`endpoint?`.  (`sync` reads `origin` from the global configuration, not from
the options; the field exists on the options type but is never consulted.) -/
structure SyncOptions where
  endpoint : Option String := none
  origin : Option String := none
  headers : Option (List (String × String)) := none
deriving DecidableEq, Repr

/-- The HTTP request handed to the transport: method, full URL, merged
headers, and the JSON body (modelled structurally, before serialization). -/
structure Request where
  method : String
  url : String
  headers : List (String × String)
  body : Option AttrMap
deriving DecidableEq, Repr

/-- A parsed JSON response body: `null`, an object, or some other JSON value. -/
inductive JsonData where
  | jnull : JsonData
  | jobj : AttrMap → JsonData
  | jval : JsValue → JsonData
deriving DecidableEq, Repr

/-- What the transport returns for a request: the success flag, the HTTP
status, the status text and the parsed body. -/
structure TransportResponse where
  ok : Bool
  status : Nat
  statusText : String := ""
  body : JsonData := JsonData.jnull
deriving DecidableEq, Repr

/-- Model.svelte.ts lines 636-647 (request construction inside `sync`): the
endpoint is `options.endpoint` when that is a non-empty string, else the
subclass `endpoint()`; the URL is `origin + endpoint`, suffixed with
`/` + the id rendered into the template string when `#getId()`'s result is
truthy; headers are the configuration headers overlaid with the per-call
headers. -/
def Model.syncRequest (m : Model) (cfg : VellumConfig) (method : String)
    (body : Option AttrMap) (options : SyncOptions) : Request :=
  let endp :=
    match options.endpoint with
    | some e => if e.length != 0 then e else m.endpoint
    | none => m.endpoint
  let fullUrl := cfg.origin ++ endp
  let url :=
    match m.getId with
    | some v => if v.truthy then fullUrl ++ "/" ++ v.jsToString else fullUrl
    | none => fullUrl
  { method := method, url := url,
    headers := mergeAssoc cfg.headers (options.headers.getD []),
    body := body }

/-- Model.svelte.ts lines 651-663 (response handling inside `sync`): a
non-ok response throws `Vellum Sync Error: <statusText>`; status 204 resolves
to `null`; otherwise the parsed JSON body is returned. -/
def syncResponse (resp : TransportResponse) : Except String JsonData :=
  if !resp.ok then Except.error ("Vellum Sync Error: " ++ resp.statusText)
  else if resp.status == 204 then Except.ok JsonData.jnull
  else Except.ok resp.body

/-- The options object accepted by `save`: `ValidationOptions & SyncOptions`. -/
structure SaveOptions where
  validate : Option Bool := none
  silent : Bool := false
  endpoint : Option String := none
  origin : Option String := none
  headers : Option (List (String × String)) := none
deriving DecidableEq, Repr

/-- The `ValidationOptions` part of a `SaveOptions` object. -/
def SaveOptions.validationPart (o : SaveOptions) : ValidationOptions :=
  { validate := o.validate, silent := o.silent }

/-- The `SyncOptions` part of a `SaveOptions` object. -/
def SaveOptions.syncPart (o : SaveOptions) : SyncOptions :=
  { endpoint := o.endpoint, origin := o.origin, headers := o.headers }

/-- Model.svelte.ts lines 742-743: `const method = id ? 'PUT' : 'POST'` —
JS truthiness applied to the value returned by `#getId()`. -/
def Model.saveMethod (m : Model) : String :=
  match m.getId with
  | some v => if v.truthy then "PUT" else "POST"
  | none => "POST"

/-- Model.svelte.ts line 745: the single request `save` issues,
`sync(method, this.toJSON(), options)`. -/
def Model.saveRequest (m : Model) (cfg : VellumConfig) (options : SaveOptions) :
    Request :=
  m.syncRequest cfg m.saveMethod (some m.toJSON) options.syncPart

/-- Model.svelte.ts lines 736-751 `save(options)`: unless `options.validate ===
false`, run `#doValidation` on the current attributes first and return `false`
(issuing no request) on failure.  Otherwise issue PUT/POST with the attribute
snapshot as body; a thrown sync error propagates; a JSON-object response body
is merged back via `set(data, silent: true)`; the call then resolves `true`.
The result triple is (requests issued, outcome, final model state). -/
def Model.save (m : Model) (validate : ValidateHook) (cfg : VellumConfig)
    (transport : Request → TransportResponse) (options : SaveOptions) :
    List Request × Except String Bool × Model :=
  let gate :=
    if options.validate ≠ some false then
      m.doValidation validate m.attributes options.validationPart
    else
      (true, m)
  match gate with
  | (false, m1) => ([], Except.ok false, m1)
  | (true, m1) =>
    let req := m1.saveRequest cfg options
    match syncResponse (transport req) with
    | Except.error e => ([req], Except.error e, m1)
    | Except.ok (JsonData.jobj fields) =>
      ([req], Except.ok true, (m1.set validate fields { silent := true }).2)
    | Except.ok _ => ([req], Except.ok true, m1)

/-- Collection.svelte.ts `model`: the bound Model subclass, i.e. its runtime
identity (`tag`, what `instanceof` tests) together with the data the
constructor uses: `defaults()`, the identity-attribute name and `endpoint()`. -/
structure ModelClass where
  tag : String
  defaults : AttrMap
  idAttribute : String
  endpoint : String
deriving DecidableEq, Repr

/-- `new cls(data)`: the Model constructor merges `data` over `defaults()`. -/
def ModelClass.construct (cls : ModelClass) (data : AttrMap) : Model :=
  { idAttribute := cls.idAttribute, endpoint := cls.endpoint,
    attributes := mergeAssoc cls.defaults data }

/-- A constructed Model instance at runtime: its state plus the runtime class
identity that `instanceof` observes. -/
structure ModelInstance where
  tag : String
  state : Model
deriving DecidableEq, Repr

/-- `item.get(attr)` on an element of a collection. -/
def ModelInstance.get (i : ModelInstance) (attr : String) : Option JsValue :=
  lookupAssoc i.state.attributes attr

/-- Collection.svelte.ts `comparator()` result: a field name, a one-argument
key extractor (`sortBy` style), or a two-argument comparison function.  The
source dispatches on the function's arity; the three shapes are the three
constructors here. -/
inductive Comparator where
  | field : String → Comparator
  | sortBy : (ModelInstance → JsValue) → Comparator
  | sortWith : (ModelInstance → ModelInstance → Int) → Comparator

/-- Collection.svelte.ts `Collection<M, T>`: the bound model class, the
optional comparator, and the reactive `items` array. -/
structure Collection where
  model : ModelClass
  comparator : Option Comparator := none
  items : List ModelInstance := []

/-- JS `a < b` for the operand shapes the comparator contract allows (two
strings or two numbers; strings compare lexicographically by code unit,
modelled on the character list).  Every comparison that would involve NaN or
`undefined` in JS is `false`; JS's numeric-coercion cases for mixed operands
are outside the model. -/
def jsLT : Option JsValue → Option JsValue → Bool
  | some (JsValue.str a), some (JsValue.str b) => decide (a.data < b.data)
  | some (JsValue.num a), some (JsValue.num b) => decide (a < b)
  | _, _ => false

/-- JS `a > b`, same domain remarks as `jsLT`. -/
def jsGT (a b : Option JsValue) : Bool :=
  jsLT b a

/-- Collection.svelte.ts lines 145-151 and 159-165: the comparator body built
from two values, `aVal < bVal ? -1 : aVal > bVal ? 1 : 0`. -/
def valCompare (a b : Option JsValue) : Int :=
  if jsLT a b then -1
  else if jsGT a b then 1
  else 0

/-- The comparison the string-comparator form uses on two items. -/
def fieldCompare (attr : String) (a b : ModelInstance) : Int :=
  valCompare (a.get attr) (b.get attr)

/-- Stable insertion into a sorted list: the new element goes after every
element it does not strictly precede. -/
def insertSorted {α : Type} (le : α → α → Bool) (x : α) : List α → List α
  | [] => [x]
  | y :: ys => if le y x then y :: insertSorted le x ys else x :: y :: ys

/-- Stable sort (insertion sort, processing the list left to right). -/
def stableSort {α : Type} (le : α → α → Bool) (l : List α) : List α :=
  l.foldl (fun acc x => insertSorted le x acc) []

/-- `Array.prototype.sort(cmp)` for a consistent comparator: ES2019+ requires
the sort to be stable, and the result is ordered so that an element precedes
another whenever the comparator does not order it after (`cmp ≤ 0`). -/
def jsSortWith {α : Type} (cmp : α → α → Int) (l : List α) : List α :=
  stableSort (fun a b => decide (cmp a b ≤ 0)) l

/-- Collection.svelte.ts lines 132-171 `sort()`: nothing without a comparator;
the field-name form compares the named attribute's values; the `sortBy` form
compares extracted keys; the two-argument form is used as the comparator
directly. -/
def Collection.sortItems (c : Collection) : Collection :=
  match c.comparator with
  | none => c
  | some (Comparator.field attr) =>
    { c with items := jsSortWith (fieldCompare attr) c.items }
  | some (Comparator.sortBy f) =>
    { c with items := jsSortWith (fun a b => valCompare (some (f a)) (some (f b))) c.items }
  | some (Comparator.sortWith f) =>
    { c with items := jsSortWith f c.items }

/-- The argument of `add(data: T | M)` at runtime: raw attribute data, or an
already-constructed instance.  The source's `data instanceof Model` test
accepts any Model instance, whatever its concrete class tag. -/
inductive AddInput where
  | raw : AttrMap → AddInput
  | inst : ModelInstance → AddInput

/-- Collection.svelte.ts lines 121-126 `add(data)`: wrap raw data in the bound
constructor (an existing instance is taken as-is), push it, re-apply the sort,
and return the inserted instance. -/
def Collection.add (c : Collection) (data : AddInput) : ModelInstance × Collection :=
  let inst :=
    match data with
    | AddInput.inst m => m
    | AddInput.raw d => { tag := c.model.tag, state := c.model.construct d }
  (inst, Collection.sortItems { c with items := c.items ++ [inst] })

/-- Collection.svelte.ts lines 185-188 `reset(data)`: rebuild `items` wholesale
by constructing one instance per raw element, then re-apply the sort. -/
def Collection.reset (c : Collection) (data : List AttrMap) : Collection :=
  Collection.sortItems
    { c with items := data.map (fun d => { tag := c.model.tag, state := c.model.construct d }) }

/-- The ordering predicate a Bool comparison induces on a list. -/
def SortedBy {α : Type} (le : α → α → Bool) (l : List α) : Prop :=
  l.Pairwise (fun a b => le a b = true)

/-- The Bool form of the field-comparator ordering: item `a` need not come
after item `b`. -/
def fieldLe (attr : String) (a b : ModelInstance) : Bool :=
  decide (fieldCompare attr a b ≤ 0)

/-- Whether the named attribute of an item holds a string. -/
def isStrField (attr : String) (i : ModelInstance) : Bool :=
  match i.get attr with
  | some (JsValue.str _) => true
  | _ => false

/-- C1 input: a model whose identity attribute holds the number 0. -/
def c1zero : Model :=
  { idAttribute := "id", endpoint := "/users",
    attributes := [("id", JsValue.num 0), ("name", JsValue.str "x")] }

/-- C1 input: a model with no identity attribute. -/
def c1absent : Model :=
  { idAttribute := "id", endpoint := "/users",
    attributes := [("name", JsValue.str "x")] }

/-- C1 input: a model whose identity attribute is null. -/
def c1null : Model :=
  { idAttribute := "id", endpoint := "/users",
    attributes := [("id", JsValue.vNull)] }

/-- C1 input: a model whose identity attribute is the empty string. -/
def c1empty : Model :=
  { idAttribute := "id", endpoint := "/users",
    attributes := [("id", JsValue.str "")] }

/-- C1 input: a model whose identity attribute is the string "42". -/
def c1str : Model :=
  { idAttribute := "id", endpoint := "/users",
    attributes := [("id", JsValue.str "42")] }

/-- C1 input: a model whose identity attribute is the number 5. -/
def c1five : Model :=
  { idAttribute := "id", endpoint := "/users",
    attributes := [("id", JsValue.num 5)] }

/-- C2 witness input: a model with a non-empty name. -/
def c2model : Model :=
  { idAttribute := "id", endpoint := "/t",
    attributes := [("name", JsValue.str "Bob")] }

/-- C2 witness input: a validate hook demanding a non-empty name. -/
def c2hook : ValidateHook := fun attrs _ =>
  match lookupAssoc attrs "name" with
  | some (JsValue.str s) => if s.length = 0 then some "name required" else none
  | _ => some "name required"

/-- C3 input: the configured origin of the claim's scenario. -/
def c3cfg : VellumConfig :=
  { origin := "https://api.x", headers := [("Content-Type", "application/json")] }

/-- C3 input: a model with identity "42" and endpoint "/users". -/
def c3m42 : Model :=
  { idAttribute := "id", endpoint := "/users",
    attributes := [("id", JsValue.str "42"), ("name", JsValue.str "n")] }

/-- C3 input: the same model without an identity. -/
def c3mNoId : Model :=
  { idAttribute := "id", endpoint := "/users",
    attributes := [("name", JsValue.str "n")] }

/-- C3 counterexample input: the model whose identity value is the number 0. -/
def c3zero : Model :=
  { idAttribute := "id", endpoint := "/users",
    attributes := [("id", JsValue.num 0), ("name", JsValue.str "n")] }

/-- C3 input: a successful empty-object response. -/
def c3response : TransportResponse :=
  { ok := true, status := 200, body := JsonData.jobj [] }

/-- C4 failing input: the update object of `configureVellum(idAttribute: "_id")`. -/
def c4update : ConfigUpdate := { idAttribute := some "_id" }

/-- C5 witness input: a model with an empty name. -/
def c5model : Model :=
  { idAttribute := "id", endpoint := "/t",
    attributes := [("name", JsValue.str "")] }

/-- C5 witness input: a validate hook demanding a non-empty name. -/
def c5hook : ValidateHook := fun attrs _ =>
  match lookupAssoc attrs "name" with
  | some (JsValue.str s) => if s.length = 0 then some "name required" else none
  | _ => some "name required"

/-- C5 witness input: a transport that would answer 200 if it were reached. -/
def c5transport : Request → TransportResponse := fun _ =>
  { ok := true, status := 200 }

/-- C6 input: a model with one attribute and empty change tracking. -/
def c6model : Model :=
  { idAttribute := "id", endpoint := "/t",
    attributes := [("name", JsValue.str "a")] }

/-- C6 input: the JSON object the server answers with. -/
def c6data : AttrMap := [("id", JsValue.str "1"), ("name", JsValue.str "b")]

/-- C6 input: a transport answering 200 with `c6data`. -/
def c6transport : Request → TransportResponse := fun _ =>
  { ok := true, status := 200, body := JsonData.jobj c6data }

/-- C7 failing input: a hook that rejects everything. -/
def c7hook : ValidateHook := fun _ _ => some "invalid"

/-- C7 failing input: a model with a stored validation error. -/
def c7model : Model :=
  { idAttribute := "id", endpoint := "/t",
    attributes := [("name", JsValue.str "")],
    validationError := some { message := "stale" } }

/-- C8 witness input: the bound model class. -/
def c8class : ModelClass :=
  { tag := "User", defaults := [], idAttribute := "id", endpoint := "/users" }

/-- C8 witness input: a collection holding one instance of the bound class. -/
def c8coll : Collection :=
  { model := c8class, comparator := none,
    items := [{ tag := "User", state := c8class.construct [("id", JsValue.num 1)] }] }

/-- C8 witness input: an already-constructed instance of the bound class. -/
def c8inst : ModelInstance :=
  { tag := "User", state := c8class.construct [("id", JsValue.num 2)] }

/-- C9 input: an empty collection whose comparator is the field name "name". -/
def c9start : Collection :=
  { model := { tag := "User", defaults := [], idAttribute := "id", endpoint := "/users" },
    comparator := some (Comparator.field "name") }

/-- C9 input: the collection after adding Zara, Alice, Michael in that order. -/
def c9result : Collection :=
  (((c9start.add (AddInput.raw [("name", JsValue.str "Zara")])).2.add
      (AddInput.raw [("name", JsValue.str "Alice")])).2.add
      (AddInput.raw [("name", JsValue.str "Michael")])).2

/-- C10 witness input: a model with a string attribute needing escaping and a
null attribute. -/
def c10model : Model :=
  { idAttribute := "id", endpoint := "/t",
    attributes := [("title", JsValue.str "a<b&c"), ("note", JsValue.vNull)] }

theorem mem_insertSorted {α : Type} (le : α → α → Bool) (x : α) :
    ∀ (l : List α) (a : α), a ∈ insertSorted le x l ↔ a = x ∨ a ∈ l := by
  intro l
  induction l with
  | nil => intro a; simp [insertSorted]
  | cons y ys ih =>
    intro a
    simp only [insertSorted]
    by_cases hyx : le y x = true
    · rw [if_pos hyx]
      simp only [List.mem_cons, ih a]
      tauto
    · rw [if_neg hyx]
      exact List.mem_cons

theorem insertSorted_perm {α : Type} (le : α → α → Bool) (x : α) :
    ∀ l : List α, (insertSorted le x l).Perm (x :: l) := by
  intro l
  induction l with
  | nil => simp [insertSorted]
  | cons y ys ih =>
    simp only [insertSorted]
    by_cases hyx : le y x = true
    · rw [if_pos hyx]
      exact (ih.cons y).trans (List.Perm.swap x y ys)
    · rw [if_neg hyx]

theorem foldl_insertSorted_perm {α : Type} (le : α → α → Bool) :
    ∀ (l acc : List α),
      (l.foldl (fun a x => insertSorted le x a) acc).Perm (acc ++ l) := by
  intro l
  induction l with
  | nil => intro acc; simp
  | cons x xs ih =>
    intro acc
    simp only [List.foldl_cons]
    refine (ih (insertSorted le x acc)).trans ?_
    refine (List.Perm.append_right xs (insertSorted_perm le x acc)).trans ?_
    exact List.perm_middle.symm

theorem stableSort_perm {α : Type} (le : α → α → Bool) (l : List α) :
    (stableSort le l).Perm l :=
  foldl_insertSorted_perm le l []

theorem insertSorted_sortedBy {α : Type} (le : α → α → Bool) (P : α → Prop)
    (htot : ∀ a b, P a → P b → le a b = true ∨ le b a = true)
    (htrans : ∀ a b c, P a → P b → P c →
      le a b = true → le b c = true → le a c = true)
    (x : α) (hx : P x) :
    ∀ l : List α, (∀ a ∈ l, P a) → SortedBy le l →
      SortedBy le (insertSorted le x l) := by
  intro l
  induction l with
  | nil =>
    intro _ _
    simp [insertSorted, SortedBy]
  | cons y ys ih =>
    intro hP hs
    simp only [SortedBy, List.pairwise_cons] at hs
    obtain ⟨hy, hys⟩ := hs
    simp only [insertSorted]
    by_cases hyx : le y x = true
    · rw [if_pos hyx]
      simp only [SortedBy, List.pairwise_cons]
      constructor
      · intro b hb
        rcases (mem_insertSorted le x ys b).mp hb with rfl | hbys
        · exact hyx
        · exact hy b hbys
      · have := ih (fun a ha => hP a (List.mem_cons_of_mem y ha)) hys
        simpa [SortedBy] using this
    · rw [if_neg hyx]
      have hxy : le x y = true := by
        rcases htot y x (hP y (List.mem_cons_self y ys)) hx with h | h
        · exact absurd h hyx
        · exact h
      simp only [SortedBy, List.pairwise_cons]
      constructor
      · intro b hb
        rcases List.mem_cons.mp hb with rfl | hbys
        · exact hxy
        · exact htrans x y b hx (hP y (List.mem_cons_self y ys))
            (hP b (List.mem_cons_of_mem y hbys)) hxy (hy b hbys)
      · exact ⟨hy, hys⟩

theorem foldl_insertSorted_sortedBy {α : Type} (le : α → α → Bool) (P : α → Prop)
    (htot : ∀ a b, P a → P b → le a b = true ∨ le b a = true)
    (htrans : ∀ a b c, P a → P b → P c →
      le a b = true → le b c = true → le a c = true) :
    ∀ (l acc : List α), (∀ a ∈ l, P a) → (∀ a ∈ acc, P a) → SortedBy le acc →
      SortedBy le (l.foldl (fun a x => insertSorted le x a) acc) := by
  intro l
  induction l with
  | nil =>
    intro acc _ _ hs
    simpa using hs
  | cons x xs ih =>
    intro acc hPl hPacc hsacc
    simp only [List.foldl_cons]
    refine ih (insertSorted le x acc) (fun a ha => hPl a (List.mem_cons_of_mem x ha))
      (fun a ha => ?_) ?_
    · rcases (mem_insertSorted le x acc a).mp ha with h | h
      · rw [h]
        exact hPl x (List.mem_cons_self x xs)
      · exact hPacc a h
    · exact insertSorted_sortedBy le P htot htrans x
        (hPl x (List.mem_cons_self x xs)) acc hPacc hsacc

theorem stableSort_sortedBy {α : Type} (le : α → α → Bool) (P : α → Prop)
    (htot : ∀ a b, P a → P b → le a b = true ∨ le b a = true)
    (htrans : ∀ a b c, P a → P b → P c →
      le a b = true → le b c = true → le a c = true)
    (l : List α) (hP : ∀ a ∈ l, P a) : SortedBy le (stableSort le l) :=
  foldl_insertSorted_sortedBy le P htot htrans l [] hP
    (by intro a ha; cases ha) (by simp [SortedBy])

theorem filter_insertSorted {α κ : Type} [DecidableEq κ] (le : α → α → Bool)
    (key : α → κ) (P : α → Prop)
    (hkeyle : ∀ a b, key a = key b → le a b = true)
    (htrans : ∀ a b c, P a → P b → P c →
      le a b = true → le b c = true → le a c = true)
    (k : κ) (x : α) (hx : P x) :
    ∀ l : List α, (∀ a ∈ l, P a) → SortedBy le l →
      (insertSorted le x l).filter (fun a => decide (key a = k)) =
        (if key x = k then l.filter (fun a => decide (key a = k)) ++ [x]
         else l.filter (fun a => decide (key a = k))) := by
  intro l
  induction l with
  | nil =>
    intro _ _
    by_cases hk : key x = k <;> simp [insertSorted, List.filter, hk]
  | cons y ys ih =>
    intro hP hs
    simp only [SortedBy, List.pairwise_cons] at hs
    obtain ⟨hy, hys⟩ := hs
    simp only [insertSorted]
    by_cases hyx : le y x = true
    · rw [if_pos hyx]
      rw [List.filter_cons, List.filter_cons,
        ih (fun a ha => hP a (List.mem_cons_of_mem y ha)) hys]
      by_cases hk : key x = k <;> by_cases hky : key y = k <;>
        simp [hk, hky]
    · rw [if_neg hyx]
      by_cases hk : key x = k
      · have hempty : (y :: ys).filter (fun a => decide (key a = k)) = [] := by
          rw [List.filter_eq_nil_iff]
          intro z hz
          simp only [decide_eq_true_eq]
          intro hkz
          have hzx : key z = key x := hkz.trans hk.symm
          rcases List.mem_cons.mp hz with rfl | hzys
          · exact absurd (hkeyle z x hzx) hyx
          · have h1 : le y z = true := hy z hzys
            have h2 : le z x = true := hkeyle z x hzx
            have h3 : le y x = true := htrans y z x
              (hP y (List.mem_cons_self y ys)) (hP z (List.mem_cons_of_mem y hzys))
              hx h1 h2
            exact absurd h3 hyx
        rw [List.filter_cons, hempty]
        simp [hk]
      · rw [List.filter_cons]
        simp [hk]

theorem filter_foldl_insertSorted {α κ : Type} [DecidableEq κ] (le : α → α → Bool)
    (key : α → κ) (P : α → Prop)
    (hkeyle : ∀ a b, key a = key b → le a b = true)
    (htot : ∀ a b, P a → P b → le a b = true ∨ le b a = true)
    (htrans : ∀ a b c, P a → P b → P c →
      le a b = true → le b c = true → le a c = true)
    (k : κ) :
    ∀ (l acc : List α), (∀ a ∈ l, P a) → (∀ a ∈ acc, P a) → SortedBy le acc →
      (l.foldl (fun a x => insertSorted le x a) acc).filter
          (fun a => decide (key a = k)) =
        acc.filter (fun a => decide (key a = k)) ++
          l.filter (fun a => decide (key a = k)) := by
  intro l
  induction l with
  | nil =>
    intro acc _ _ _
    simp
  | cons x xs ih =>
    intro acc hPl hPacc hsacc
    simp only [List.foldl_cons]
    rw [ih (insertSorted le x acc)
      (fun a ha => hPl a (List.mem_cons_of_mem x ha))
      (fun a ha => by
        rcases (mem_insertSorted le x acc a).mp ha with h | h
        · rw [h]
          exact hPl x (List.mem_cons_self x xs)
        · exact hPacc a h)
      (insertSorted_sortedBy le P htot htrans x
        (hPl x (List.mem_cons_self x xs)) acc hPacc hsacc)]
    rw [filter_insertSorted le key P hkeyle htrans k x
      (hPl x (List.mem_cons_self x xs)) acc hPacc hsacc]
    rw [List.filter_cons]
    by_cases hk : key x = k <;> simp [hk]

theorem filter_stableSort {α κ : Type} [DecidableEq κ] (le : α → α → Bool)
    (key : α → κ) (P : α → Prop)
    (hkeyle : ∀ a b, key a = key b → le a b = true)
    (htot : ∀ a b, P a → P b → le a b = true ∨ le b a = true)
    (htrans : ∀ a b c, P a → P b → P c →
      le a b = true → le b c = true → le a c = true)
    (k : κ) (l : List α) (hP : ∀ a ∈ l, P a) :
    (stableSort le l).filter (fun a => decide (key a = k)) =
      l.filter (fun a => decide (key a = k)) := by
  have h := filter_foldl_insertSorted le key P hkeyle htot htrans k l [] hP
    (by intro a ha; cases ha) (by simp [SortedBy])
  simpa using h

theorem string_join_append (l1 l2 : List String) :
    String.join (l1 ++ l2) = String.join l1 ++ String.join l2 := by
  apply String.toList_inj.mp
  show (String.join (l1 ++ l2)).data = (String.join l1 ++ String.join l2).data
  rw [String.data_join, String.data_append, String.data_join, String.data_join,
    List.map_append, List.flatten_append]

theorem string_length_pos (s : String) (h : s ≠ "") : 0 < s.length := by
  cases s with
  | mk data =>
    cases data with
    | nil => exact absurd rfl h
    | cons c cs => simp [String.length]

theorem jsLT_self (o : Option JsValue) : jsLT o o = false := by
  rcases o with _ | v
  · rfl
  · cases v with
    | vNull => rfl
    | str s => simp [jsLT]
    | num n => simp [jsLT]
    | bool b => rfl

theorem fieldLe_of_key_eq (attr : String) (a b : ModelInstance)
    (h : a.get attr = b.get attr) : fieldLe attr a b = true := by
  unfold fieldLe fieldCompare valCompare jsGT
  rw [h, jsLT_self]
  simp

theorem isStrField_exists (attr : String) (i : ModelInstance)
    (h : isStrField attr i = true) :
    ∃ s, i.get attr = some (JsValue.str s) := by
  unfold isStrField at h
  cases hv : i.get attr with
  | none => rw [hv] at h; simp at h
  | some v =>
    cases v with
    | str s => exact ⟨s, hv ▸ rfl⟩
    | vNull => rw [hv] at h; simp at h
    | num n => rw [hv] at h; simp at h
    | bool b => rw [hv] at h; simp at h

theorem fieldLe_str (attr : String) (a b : ModelInstance) (sa sb : String)
    (ha : a.get attr = some (JsValue.str sa))
    (hb : b.get attr = some (JsValue.str sb)) :
    fieldLe attr a b = !(decide (sb.data < sa.data)) := by
  unfold fieldLe fieldCompare valCompare jsGT
  rw [ha, hb]
  simp only [jsLT]
  by_cases h1 : sa.data < sb.data
  · have h2 : ¬ sb.data < sa.data := lt_asymm h1
    simp [h1, h2]
  · by_cases h2 : sb.data < sa.data
    · simp [h1, h2]
    · simp [h1, h2]

theorem fieldLe_total_str (attr : String) :
    ∀ a b, isStrField attr a = true → isStrField attr b = true →
      fieldLe attr a b = true ∨ fieldLe attr b a = true := by
  intro a b ha hb
  obtain ⟨sa, ha'⟩ := isStrField_exists attr a ha
  obtain ⟨sb, hb'⟩ := isStrField_exists attr b hb
  rw [fieldLe_str attr a b sa sb ha' hb', fieldLe_str attr b a sb sa hb' ha']
  by_cases h : sb.data < sa.data
  · right
    simp [lt_asymm h]
  · left
    simp [h]

theorem fieldLe_trans_str (attr : String) :
    ∀ a b c, isStrField attr a = true → isStrField attr b = true →
      isStrField attr c = true →
      fieldLe attr a b = true → fieldLe attr b c = true →
      fieldLe attr a c = true := by
  intro a b c ha hb hc hab hbc
  obtain ⟨sa, ha'⟩ := isStrField_exists attr a ha
  obtain ⟨sb, hb'⟩ := isStrField_exists attr b hb
  obtain ⟨sc, hc'⟩ := isStrField_exists attr c hc
  rw [fieldLe_str attr a b sa sb ha' hb'] at hab
  rw [fieldLe_str attr b c sb sc hb' hc'] at hbc
  rw [fieldLe_str attr a c sa sc ha' hc']
  simp only [Bool.not_eq_true', decide_eq_false_iff_not] at hab hbc ⊢
  exact not_lt.mpr (le_trans (not_lt.mp hab) (not_lt.mp hbc))

theorem mem_sortItems (c : Collection) (i : ModelInstance) :
    i ∈ (Collection.sortItems c).items ↔ i ∈ c.items := by
  unfold Collection.sortItems
  cases hc : c.comparator with
  | none => exact Iff.rfl
  | some cmp =>
    cases cmp with
    | field attr => exact (stableSort_perm _ _).mem_iff
    | sortBy f => exact (stableSort_perm _ _).mem_iff
    | sortWith f => exact (stableSort_perm _ _).mem_iff

theorem save_unfold_pass (m m1 : Model) (validate : ValidateHook)
    (cfg : VellumConfig) (transport : Request → TransportResponse)
    (options : SaveOptions)
    (hgate : (if options.validate ≠ some false then
        m.doValidation validate m.attributes options.validationPart
      else (true, m)) = (true, m1)) :
    m.save validate cfg transport options =
      (match syncResponse (transport (m1.saveRequest cfg options)) with
       | Except.error e => ([m1.saveRequest cfg options], Except.error e, m1)
       | Except.ok (JsonData.jobj fields) =>
         ([m1.saveRequest cfg options], Except.ok true,
          (m1.set validate fields { silent := true }).2)
       | Except.ok _ => ([m1.saveRequest cfg options], Except.ok true, m1)) := by
  unfold Model.save
  rw [hgate]

/-- C1: the claim says `isNew()` is true iff the identity attribute is absent,
null, or an empty string, and false for any non-empty string and for any
number, including the number 0.  Evaluating the code: `#getId()` does return
the number 0 as an identity (`typeof id === 'number'`), but `isNew()` is
`!this.#getId()`, and `!0` is `true` in JavaScript — so at the failing input
`attributes = (id: 0)` the code answers `isNew() = true` where the claim (and
`isNew`'s own JSDoc, and the `has()` contract that falsy values count as
present) requires `false`.  Every other case of the claim holds, as the
remaining conjuncts show. -/
theorem C1_isNew_zero_id :
    Model.getId c1zero = some (JsValue.num 0) ∧
    Model.isNew c1zero = true ∧
    Model.isNew c1absent = true ∧
    Model.isNew c1null = true ∧
    Model.isNew c1empty = true ∧
    Model.isNew c1str = false ∧
    Model.isNew c1five = false :=
  ⟨rfl, rfl, rfl, rfl, rfl, rfl, rfl⟩

/-- C2: a `set` with `validate: true` (and `silent` not set) whose validate
hook returns a non-empty string for the merged candidate attributes returns
`false`, leaves `attributes`, `changed` and `previous` exactly as they were,
and sets `validationError` to an error whose message equals the hook's
string. -/
theorem C2_set_validation_gate (m : Model) (validate : ValidateHook)
    (attrs : AttrMap) (opts : ValidationOptions)
    (hval : opts.validate = some true) (hsil : opts.silent = false)
    (msg : String)
    (hmsg : validate (mergeAssoc m.attributes attrs) opts = some msg)
    (hne : msg ≠ "") :
    m.set validate attrs opts =
      (false, { m with validationError := some { message := msg } }) := by
  have hpos : 0 < msg.length := string_length_pos msg hne
  unfold Model.set
  rw [if_pos hval]
  unfold Model.doValidation
  rw [if_neg (by simp [hsil]), hmsg]
  simp [hpos]

/-- C2 witness: a concrete failing validated `set`.  The model keeps its
attributes and empty change tracking; only `validationError` is set, carrying
exactly the hook's message. -/
theorem C2_witness :
    c2model.set c2hook [("name", JsValue.str "")] { validate := some true } =
      (false,
       { c2model with validationError := some { message := "name required" } }) :=
  C2_set_validation_gate c2model c2hook [("name", JsValue.str "")]
    { validate := some true } rfl rfl "name required" rfl (by decide)

/-- C3 counterexample: the claim's clause "save() issues PUT when the identity
is present and POST when it is not" fails at a model whose identity value is
the number 0 — an identity this claim set itself counts as present (C1: "any
number, including the number 0", and `#getId` returns it).  `const method = id
? 'PUT' : 'POST'` tests JS truthiness, 0 is falsy, so save() issues POST. -/
theorem C3_counterexample :
    Model.getId c3zero = some (JsValue.num 0) ∧
    Model.saveMethod c3zero = "POST" ∧
    (c3zero.save (fun _ _ => none) c3cfg (fun _ => c3response) {}).1.map
      Request.method = ["POST"] :=
  ⟨rfl, rfl, rfl⟩

/-- C3 amended: `sync('GET')` on a Model with identity "42", endpoint
"/users" and origin "https://api.x" targets exactly "https://api.x/users/42";
without identity, exactly "https://api.x/users".  `save()` issues exactly one
request, with the full current attribute snapshot as the body; its method is
PUT when the resolved identity is truthy (a non-empty string or a nonzero
number, i.e. exactly when `isNew()` is false) and POST otherwise — in
particular POST when the identity is the number 0. -/
theorem C3_amended :
    (Model.syncRequest c3m42 c3cfg "GET" none {}).url = "https://api.x/users/42" ∧
    (Model.syncRequest c3m42 c3cfg "GET" none {}).method = "GET" ∧
    (Model.syncRequest c3mNoId c3cfg "GET" none {}).url = "https://api.x/users" ∧
    (∀ m : Model,
      Model.saveMethod m = if Model.isNew m then "POST" else "PUT") ∧
    (∀ (m : Model) (cfg : VellumConfig) (transport : Request → TransportResponse),
      (m.save (fun _ _ => none) cfg transport {}).1 =
        [Model.saveRequest { m with validationError := none } cfg {}]) ∧
    (∀ (m : Model) (cfg : VellumConfig) (options : SaveOptions),
      (Model.saveRequest m cfg options).method = Model.saveMethod m ∧
      (Model.saveRequest m cfg options).body = some m.toJSON) := by
  refine ⟨rfl, rfl, rfl, ?_, ?_, ?_⟩
  · intro m
    unfold Model.saveMethod Model.isNew
    cases m.getId with
    | none => rfl
    | some v =>
      cases hv : v.truthy <;> simp [hv]
  · intro m cfg transport
    rw [save_unfold_pass m { m with validationError := none }
      (fun _ _ => none) cfg transport {} rfl]
    cases hres : syncResponse (transport
        (Model.saveRequest { m with validationError := none } cfg {})) with
    | error e => rfl
    | ok d => cases d <;> rfl
  · intro m cfg options
    exact ⟨rfl, rfl⟩

/-- C4: the claim says the configuration update operation, given a non-empty
`idAttribute` string, replaces the configuration's `idAttribute` (default
"id") and Models observe it.  Evaluating the code: `VellumConfig` has no
`idAttribute` field at all and `configureVellum` reads only `origin` and
`headers`, so the call `configureVellum(idAttribute: "_id")` leaves the
configuration unchanged, and the `vellumConfig.idAttribute` read that
initializes `Model.idAttribute` stays `undefined` — both before and after the
call, and never "id". -/
theorem C4_configure_idAttribute :
    configureVellum c4update vellumConfig = vellumConfig ∧
    readIdAttribute vellumConfig = none ∧
    readIdAttribute (configureVellum c4update vellumConfig) = none :=
  ⟨rfl, rfl, rfl⟩

/-- C5: `save()` called without `validate: false` (and without `silent`) on a
Model whose current attributes fail the validate hook returns `false` and
issues no request at all: the transport is never invoked. -/
theorem C5_save_blocks (m : Model) (validate : ValidateHook)
    (cfg : VellumConfig) (transport : Request → TransportResponse)
    (options : SaveOptions)
    (hval : options.validate ≠ some false) (hsil : options.silent = false)
    (msg : String)
    (hmsg : validate m.attributes options.validationPart = some msg)
    (hne : msg ≠ "") :
    (m.save validate cfg transport options).1 = [] ∧
    (m.save validate cfg transport options).2.1 = Except.ok false := by
  have hgate : (if options.validate ≠ some false then
      m.doValidation validate m.attributes options.validationPart
    else (true, m)) =
      (false, { m with validationError := some { message := msg } }) := by
    have hpos : 0 < msg.length := string_length_pos msg hne
    rw [if_pos hval]
    unfold Model.doValidation
    rw [if_neg (by simp [SaveOptions.validationPart, hsil]), hmsg]
    simp [hpos]
  constructor <;> (unfold Model.save; rw [hgate])

/-- C5 witness: a concrete blocked save — the request list is empty and the
result is `false`. -/
theorem C5_witness :
    (c5model.save c5hook vellumConfig c5transport {}).1 = [] ∧
    (c5model.save c5hook vellumConfig c5transport {}).2.1 = Except.ok false :=
  C5_save_blocks c5model c5hook vellumConfig c5transport {} (by decide) rfl
    "name required" rfl (by decide)

/-- C6 counterexample: the claim says a successful `save()` merge does not
re-trigger `changed`/`previous` tracking.  At this concrete input the save
succeeds, `changed` was empty before the call, and after it `changed` equals
the (non-empty) server response object: `set(data, silent: true)` only skips
validation — silent does not bypass change tracking. -/
theorem C6_counterexample :
    (c6model.save (fun _ _ => none) vellumConfig c6transport {}).2.1 =
      Except.ok true ∧
    c6model.changed = [] ∧
    c6data ≠ [] ∧
    (c6model.save (fun _ _ => none) vellumConfig c6transport {}).2.2.changed =
      c6data :=
  ⟨rfl, rfl, by decide, rfl⟩

/-- C6 amended: a successful `save()` merges the JSON-object response into
`attributes` without running validation on the merge (the hook is quantified:
whatever it would say about the merged attributes, the final `validationError`
is `none`, left by the pre-save validation), but the merge does re-trigger
change tracking: afterwards `changed` equals the response object and
`previous` holds the pre-merge values of the response's keys. -/
theorem C6_save_merge_tracking (m : Model) (validate : ValidateHook)
    (cfg : VellumConfig) (d : AttrMap)
    (transport : Request → TransportResponse)
    (hv : validate m.attributes ({} : SaveOptions).validationPart = none)
    (hr : transport (Model.saveRequest { m with validationError := none } cfg {}) =
      { ok := true, status := 200, statusText := "", body := JsonData.jobj d }) :
    m.save validate cfg transport {} =
      ([Model.saveRequest { m with validationError := none } cfg {}],
       Except.ok true,
       { m with validationError := none,
                attributes := mergeAssoc m.attributes d,
                changed := d,
                previous := d.filterMap (fun kv =>
                  (lookupAssoc m.attributes kv.1).map (fun v => (kv.1, v))) }) := by
  have hgate : (if ({} : SaveOptions).validate ≠ some false then
      m.doValidation validate m.attributes ({} : SaveOptions).validationPart
    else (true, m)) = (true, { m with validationError := none }) := by
    rw [if_pos (by decide)]
    unfold Model.doValidation
    rw [if_neg (by decide), hv]
  rw [save_unfold_pass m { m with validationError := none } validate cfg
    transport {} hgate]
  rw [hr]
  rfl

/-- C6 witness: the amended statement at the concrete input of the
counterexample. -/
theorem C6_witness :
    c6model.save (fun _ _ => none) vellumConfig c6transport {} =
      ([Model.saveRequest { c6model with validationError := none } vellumConfig {}],
       Except.ok true,
       { c6model with validationError := none,
                      attributes := mergeAssoc c6model.attributes c6data,
                      changed := c6data,
                      previous := c6data.filterMap (fun kv =>
                        (lookupAssoc c6model.attributes kv.1).map
                          (fun v => (kv.1, v))) }) :=
  C6_save_merge_tracking c6model (fun _ _ => none) vellumConfig c6data
    c6transport rfl rfl

/-- C7: the claim says `isValid` returns the validate hook's verdict, and with
`silent: true` the verdict is unchanged while a stored `validationError` is not
modified.  Evaluating the code at the failing input: the hook rejects the
current attributes, yet `isValid(silent: true)` returns `true` (the silent
branch of `#doValidation` never calls the hook) and the stored error is
overwritten with `undefined` — contradicting the claim and `isValid`'s own
JSDoc example ("user.validationError remains unchanged"). -/
theorem C7_isValid_silent :
    c7model.isValid c7hook { silent := true } =
      (true, { c7model with validationError := none }) ∧
    c7hook c7model.attributes { validate := some true, silent := true } =
      some "invalid" ∧
    c7model.validationError = some { message := "stale" } :=
  ⟨rfl, rfl, rfl⟩

/-- C8: every element of `items` is an instance of the bound model class, and
the invariant is preserved by `add` — for raw data, which is wrapped in the
bound constructor, and for an already-constructed instance of the bound model
(the type of `add`'s parameter, `T | M`) — and by `reset`, which rebuilds
`items` wholesale through the bound constructor. -/
theorem C8_collection_invariant (c : Collection) (x : AddInput)
    (hc : ∀ i ∈ c.items, i.tag = c.model.tag)
    (hx : ∀ m, x = AddInput.inst m → m.tag = c.model.tag) :
    (∀ i ∈ (c.add x).2.items, i.tag = c.model.tag) ∧
    ∀ (data : List AttrMap), ∀ i ∈ (c.reset data).items, i.tag = c.model.tag := by
  constructor
  · intro i hi
    unfold Collection.add at hi
    rw [mem_sortItems] at hi
    rcases List.mem_append.mp hi with h | h
    · exact hc i h
    · rw [List.mem_singleton.mp h]
      cases x with
      | raw d => rfl
      | inst mi => exact hx mi rfl
  · intro data i hi
    unfold Collection.reset at hi
    rw [mem_sortItems] at hi
    simp only [List.mem_map] at hi
    obtain ⟨d, _, hd⟩ := hi
    rw [← hd]

/-- C8 witness: the invariant at a concrete collection, adding an instance of
the bound class. -/
theorem C8_witness :
    (∀ i ∈ (c8coll.add (AddInput.inst c8inst)).2.items, i.tag = c8coll.model.tag) ∧
    ∀ (data : List AttrMap), ∀ i ∈ (c8coll.reset data).items,
      i.tag = c8coll.model.tag :=
  C8_collection_invariant c8coll (AddInput.inst c8inst) (by decide)
    (fun m h => by cases h; rfl)

/-- C9: with the comparator set to the field name "name", adding items named
Zara, Alice, Michael in that order yields items ordered Alice, Michael, Zara;
and in general the field-name comparator form sorts string-valued fields
ascending in native order — the sorted items are a permutation of the previous
items, pairwise ordered by the field comparator, and every tie class (same
field value) keeps its original relative order. -/
theorem C9_field_comparator_sort :
    c9result.items.map (fun i => i.get "name") =
      [some (JsValue.str "Alice"), some (JsValue.str "Michael"),
       some (JsValue.str "Zara")] ∧
    ∀ (attr : String) (c : Collection),
      c.comparator = some (Comparator.field attr) →
      (∀ i ∈ c.items, isStrField attr i = true) →
      SortedBy (fieldLe attr) (Collection.sortItems c).items ∧
      (Collection.sortItems c).items.Perm c.items ∧
      ∀ k : Option JsValue,
        (Collection.sortItems c).items.filter (fun i => decide (i.get attr = k)) =
          c.items.filter (fun i => decide (i.get attr = k)) := by
  constructor
  · rfl
  · intro attr c hcomp hP
    have hitems : (Collection.sortItems c).items =
        stableSort (fieldLe attr) c.items := by
      unfold Collection.sortItems
      rw [hcomp]
      rfl
    refine ⟨?_, ?_, ?_⟩
    · rw [hitems]
      exact stableSort_sortedBy (fieldLe attr) (fun i => isStrField attr i = true)
        (fieldLe_total_str attr) (fieldLe_trans_str attr) c.items hP
    · rw [hitems]
      exact stableSort_perm _ _
    · intro k
      rw [hitems]
      exact filter_stableSort (fieldLe attr) (fun i => i.get attr)
        (fun i => isStrField attr i = true) (fieldLe_of_key_eq attr)
        (fieldLe_total_str attr) (fieldLe_trans_str attr) k c.items hP

/-- C9 witness: the general clause of C9 at the concrete collection of the
scenario. -/
theorem C9_witness :
    SortedBy (fieldLe "name") (Collection.sortItems c9result).items ∧
    (Collection.sortItems c9result).items.Perm c9result.items ∧
    ∀ k : Option JsValue,
      (Collection.sortItems c9result).items.filter
        (fun i => decide (i.get "name" = k)) =
      c9result.items.filter (fun i => decide (i.get "name" = k)) :=
  C9_field_comparator_sort.2 "name" c9result rfl (by decide)

/-- C10: `escape(key)` returns the empty string when the attribute is absent
or null, and otherwise the value's string conversion with every occurrence of
the five special characters replaced by its HTML entity; `escapeHTML` replaces
characters pointwise (it distributes over concatenation and fixes every
non-special character).  The source method reads `attributes` and performs no
mutation, so the embedding is a pure reader: attributes are unchanged by
construction. -/
theorem C10_escape (m : Model) (key : String) :
    (lookupAssoc m.attributes key = none → m.escape key = "") ∧
    (lookupAssoc m.attributes key = some JsValue.vNull → m.escape key = "") ∧
    (∀ v, lookupAssoc m.attributes key = some v → v ≠ JsValue.vNull →
      m.escape key = escapeHTML v.jsToString) ∧
    escapeHTML "&" = "&amp;" ∧
    escapeHTML "<" = "&lt;" ∧
    escapeHTML ">" = "&gt;" ∧
    escapeHTML "\"" = "&quot;" ∧
    escapeHTML (String.singleton '\'') = "&#39;" ∧
    (∀ a b : String, escapeHTML (a ++ b) = escapeHTML a ++ escapeHTML b) ∧
    (∀ c : Char, c ≠ '&' → c ≠ '<' → c ≠ '>' → c ≠ '"' → c ≠ '\'' →
      escapeHTML (String.singleton c) = String.singleton c) := by
  refine ⟨?_, ?_, ?_, rfl, rfl, rfl, rfl, rfl, ?_, ?_⟩
  · intro h
    unfold Model.escape
    rw [h]
  · intro h
    unfold Model.escape
    rw [h]
  · intro v hv hnn
    unfold Model.escape
    rw [hv]
    cases v with
    | vNull => exact absurd rfl hnn
    | str s => rfl
    | num n => rfl
    | bool b => rfl
  · intro a b
    unfold escapeHTML
    rw [String.data_append, List.map_append, string_join_append]
  · intro c h1 h2 h3 h4 h5
    unfold escapeHTML
    show String.join [escapeChar c] = String.singleton c
    unfold escapeChar
    rw [if_neg h1, if_neg h2, if_neg h3, if_neg h4, if_neg h5]
    rfl

/-- C10 witness: concrete escapes — a string value with special characters, a
null value, an absent key, a concatenation, and a non-special character. -/
theorem C10_witness :
    c10model.escape "title" = escapeHTML (JsValue.str "a<b&c").jsToString ∧
    c10model.escape "note" = "" ∧
    c10model.escape "missing" = "" ∧
    escapeHTML ("a" ++ "<b") = escapeHTML "a" ++ escapeHTML "<b" ∧
    escapeHTML (String.singleton 'z') = String.singleton 'z' := by
  refine ⟨(C10_escape c10model "title").2.2.1 (JsValue.str "a<b&c") rfl (by decide),
    (C10_escape c10model "note").2.1 rfl,
    (C10_escape c10model "missing").1 rfl,
    (C10_escape c10model "title").2.2.2.2.2.2.2.2.1 "a" "<b",
    (C10_escape c10model "title").2.2.2.2.2.2.2.2.2 'z' (by decide) (by decide)
      (by decide) (by decide) (by decide)⟩

end Vellum
